import Mathlib

/-!
Verification development for the link-budget calculator.

The numeric f64 operations of `src/calc.rs` and the solver of
`src/main.rs` are shallowly embedded over the reals: `f64::log10` becomes
`Real.logb 10` and `f64::powf` / `10f64.powf` become real `rpow`.  A
non-finite f64 result (NaN or an infinity, which in this program can only
arise from a `log10` applied to a non-positive argument; overflow is
abstracted away) is modelled by the side predicate `closureFinite`, which
holds exactly when every `log10` argument occurring in `total_sum` is
positive.  The guard `if total_db.is_infinite() || total_db.is_nan()` of
`update` is embedded as a test of that predicate.
-/

noncomputable section

namespace Calc

/-- Boltzmann constant (joule per kelvin), `KB` in `src/calc.rs`. -/
def KB : ℝ := 1.380649e-23

/-- Speed of light, `C` in `src/calc.rs`. -/
def C : ℝ := 299792458.0

/-- `lambda` from `src/calc.rs`. -/
def lambda (frequency : ℝ) : ℝ := C / frequency

/-- `thermal_noise_power` from `src/calc.rs`. -/
def thermal_noise_power (temperature bandwidth : ℝ) : ℝ :=
  KB * temperature * bandwidth

/-- `thermal_noise_temperature` from `src/calc.rs`. -/
def thermal_noise_temperature (power bandwidth : ℝ) : ℝ :=
  power / bandwidth / KB

/-- `milliwatt_to_dbm` from `src/calc.rs`. -/
def milliwatt_to_dbm (power : ℝ) : ℝ := 10.0 * Real.logb 10 power

/-- `watt_to_dbm` from `src/calc.rs`. -/
def watt_to_dbm (power : ℝ) : ℝ := 10.0 * Real.logb 10 (power * 1000.0)

/-- `dbm_to_milliwat` from `src/calc.rs` (sic: source spells it without the
final t). `f64::powf(10.0, dbm / 10.)` is real exponentiation. -/
def dbm_to_milliwat (dbm : ℝ) : ℝ := (10.0 : ℝ) ^ (dbm / 10.0)

/-- `dbm_to_watt` from `src/calc.rs`. -/
def dbm_to_watt (dbm : ℝ) : ℝ := (10.0 : ℝ) ^ (dbm / 10.0) / 1000.0

/-- Modelled from the spec: `dbm_to_dbw` is called by `src/app.rs` but its
definition is missing from the sources under `src/`; §4.1 of the spec gives
the formula `dBW = dBm − 30`. -/
def dbm_to_dbw (dbm : ℝ) : ℝ := dbm - 30.0

/-- Modelled from the spec: `dbw_to_dbm` is called by `src/app.rs` but its
definition is missing from the sources under `src/`; it is the inverse of
`dBW = dBm − 30`. -/
def dbw_to_dbm (dbw : ℝ) : ℝ := dbw + 30.0

namespace friis

/-- `friis::path_loss` from `src/calc.rs`. -/
def path_loss (distance d_break frequency break_exponent : ℝ) : ℝ :=
  let one_meter_one_ghz : ℝ := 32.0
  let freq_loss := 20.0 * Real.logb 10 (frequency / 1e9)
  let path_loss := one_meter_one_ghz + freq_loss +
    (if distance < d_break then
      20.0 * Real.logb 10 (distance / 1.0)
    else
      20.0 * Real.logb 10 (d_break / 1.0)
        + break_exponent * 10.0 * Real.logb 10 (distance / d_break))
  path_loss

/-- `friis::distance` from `src/calc.rs` (the local `path_loss` shadows the
parameter, as in the source). -/
def distance (path_loss d_break frequency break_exponent : ℝ) : ℝ :=
  let one_meter_one_ghz : ℝ := 32.0
  let freq_loss := 20.0 * Real.logb 10 (frequency / 1e9)
  let path_loss := path_loss - one_meter_one_ghz - freq_loss
  let loss_at_break := 20.0 * Real.logb 10 (d_break / 1.0)
  let distance := if path_loss ≤ loss_at_break then
      (10.0 : ℝ) ^ (path_loss / 20.0)
    else
      (10.0 : ℝ) ^ ((path_loss - loss_at_break) / break_exponent / 10.0) * d_break
  distance

end friis

end Calc

/-- `CalculationTarget` from `src/main.rs`. -/
inductive CalculationTarget where
  | Snr
  | Distance
  | TxPower
deriving DecidableEq

/-- `LinkBudgetApp` from `src/main.rs`.  The two `HashMap<String, f64>`
collections are modelled as association lists (the code only ever takes the
sum of the values, so ordering is irrelevant). -/
structure LinkBudgetApp where
  temperature : ℝ
  frequency : ℝ
  bandwidth : ℝ
  snr : ℝ
  tx_power : ℝ
  distance : ℝ
  d_break : ℝ
  break_exponent : ℝ
  losses : List (String × ℝ)
  loss_name : String
  loss_db : ℝ
  gains : List (String × ℝ)
  gain_name : String
  gain_db : ℝ
  calculation_target : CalculationTarget

namespace LinkBudgetApp

/-- `LinkBudgetApp::total_losses` from `src/main.rs`. -/
def total_losses (s : LinkBudgetApp) : ℝ :=
  (s.losses.map (fun p => p.2)).sum

/-- `LinkBudgetApp::total_gains` from `src/main.rs`. -/
def total_gains (s : LinkBudgetApp) : ℝ :=
  (s.gains.map (fun p => p.2)).sum

/-- `LinkBudgetApp::total_sum` from `src/main.rs`. -/
def total_sum (s : LinkBudgetApp) : ℝ :=
  let thermal := Calc.watt_to_dbm (Calc.thermal_noise_power s.temperature s.bandwidth)
  let losses := s.total_losses
  let gains := s.total_gains
  let path := Calc.friis.path_loss s.distance s.d_break s.frequency s.break_exponent
  let negative := thermal + losses + path + s.snr
  let positive := s.tx_power + gains
  positive - negative

/-- Finiteness of the f64 evaluation of the piecewise `friis::path_loss`:
every `log10` argument that the taken branch evaluates is positive. -/
def pathLossFinite (distance d_break frequency : ℝ) : Prop :=
  0 < frequency / 1e9 ∧
    ((distance < d_break → 0 < distance / 1.0) ∧
     (d_break ≤ distance → 0 < d_break / 1.0 ∧ 0 < distance / d_break))

/-- Finiteness of the f64 evaluation of `total_sum`: the argument of the
thermal-noise `log10` and the arguments of the path-loss `log10`s are
positive (the remaining contributions — stored dB values and their finite
sums — are always finite).  This is exactly the condition under which the
real-valued model agrees with the finite f64 value, i.e. the negation of
`total_db.is_infinite() || total_db.is_nan()` in `src/main.rs`. -/
def closureFinite (s : LinkBudgetApp) : Prop :=
  0 < Calc.thermal_noise_power s.temperature s.bandwidth * 1000.0 ∧
    pathLossFinite s.distance s.d_break s.frequency

open Classical in
/-- The mutating tail of `LinkBudgetApp::update` from `src/main.rs`
(lines 317–332): the UI code above it does not touch the solver state.
`total_db` is computed once at entry, the guard returns the state
unchanged when it is non-finite, and otherwise the single field selected
by `calculation_target` absorbs the closure error. -/
def update (s : LinkBudgetApp) : LinkBudgetApp :=
  let total_db := s.total_sum
  if ¬ s.closureFinite then s
  else
    match s.calculation_target with
    | CalculationTarget.Snr => { s with snr := s.snr + total_db }
    | CalculationTarget.Distance =>
        let new_path_loss :=
          Calc.friis.path_loss s.distance s.d_break s.frequency s.break_exponent + total_db
        { s with distance :=
            Calc.friis.distance new_path_loss s.d_break s.frequency s.break_exponent }
    | CalculationTarget.TxPower => { s with tx_power := s.tx_power - total_db }

end LinkBudgetApp

/-- The closure error exactly as §3 of the spec words it:
`(TX power + total gains) − (thermal noise floor in dBm + total losses +
path loss + SNR)`. -/
def closure_error_spec (s : LinkBudgetApp) : ℝ :=
  (s.tx_power + s.total_gains) -
    (Calc.watt_to_dbm (Calc.thermal_noise_power s.temperature s.bandwidth)
      + s.total_losses
      + Calc.friis.path_loss s.distance s.d_break s.frequency s.break_exponent
      + s.snr)

/-- C3: for every state, the closure error returned by `total_sum` equals
`(TX power in dBm + sum of named gains) − (thermal noise floor in dBm +
sum of named losses + path loss + SNR)`, the noise floor being
`watt_to_dbm (thermal_noise_power temperature bandwidth)`. -/
theorem total_sum_eq_closure_error_spec (s : LinkBudgetApp) :
    s.total_sum = closure_error_spec s := by
  unfold LinkBudgetApp.total_sum closure_error_spec
  ring

/-- The path-loss formula exactly as §4.3 of the spec words it:
`32 + 20·log10(f/1e9)` plus `20·log10(d)` when `d < d₀`, and plus
`20·log10(d₀) + n·10·log10(d/d₀)` when `d ≥ d₀`. -/
def path_loss_spec_model (d d0 f n : ℝ) : ℝ :=
  if d < d0 then 32 + 20 * Real.logb 10 (f / 1e9) + 20 * Real.logb 10 d
  else 32 + 20 * Real.logb 10 (f / 1e9)
        + (20 * Real.logb 10 d0 + n * 10 * Real.logb 10 (d / d0))

/-- C5: `friis::path_loss` agrees with the spec formula on every input, and
at d = 2000 m, d₀ = 500 m, f = 2.4 GHz, n = 4.3 it equals
`32 + 20·log10 2.4 + 20·log10 500 + 4.3·10·log10 4`. -/
theorem path_loss_matches_spec :
    (∀ d d0 f n : ℝ, Calc.friis.path_loss d d0 f n = path_loss_spec_model d d0 f n) ∧
    Calc.friis.path_loss 2000 500 2.4e9 4.3
      = 32 + 20 * Real.logb 10 2.4 + 20 * Real.logb 10 500
          + 4.3 * 10 * Real.logb 10 4 := by
  constructor
  · intro d d0 f n
    simp only [Calc.friis.path_loss, path_loss_spec_model]
    rw [show (1.0:ℝ) = 1 by norm_num]
    split_ifs with h
    · rw [div_one]; ring
    · rw [div_one]; ring
  · simp only [Calc.friis.path_loss]
    rw [if_neg (by norm_num : ¬ (2000:ℝ) < 500)]
    norm_num
    ring

/-- C7 counterexample: the mW round-trip fails at the finite input −1.
In the f64 program `10.0 * f64::log10(-1.0)` is NaN, so the round-trip
returns NaN ≠ −1; in the real-valued model `Real.log (-1) = 0`, so the
round-trip returns 1 ≠ −1.  Either way the claim is false at p = −1. -/
theorem dbm_mw_roundtrip_fails_at_neg_one :
    Calc.dbm_to_milliwat (Calc.milliwatt_to_dbm (-1)) ≠ -1 := by
  unfold Calc.dbm_to_milliwat Calc.milliwatt_to_dbm
  rw [show ((-1:ℝ)) = -(1:ℝ) by norm_num, Real.logb_neg_eq_logb, Real.logb_one]
  norm_num

/-- C7 (amended): for every p > 0 the dBm/mW and dBm/W conversion pairs are
exact inverses, and the dBm/dBW pair (modelled from the spec) is an exact
inverse for every q, negative dBW values included; exact equality implies
the claimed 1e-9 relative tolerance. -/
theorem power_roundtrips_pos (p : ℝ) (hp : 0 < p) :
    Calc.dbm_to_milliwat (Calc.milliwatt_to_dbm p) = p ∧
    Calc.dbm_to_watt (Calc.watt_to_dbm p) = p ∧
    (∀ q : ℝ, Calc.dbm_to_dbw (Calc.dbw_to_dbm q) = q) := by
  refine ⟨?_, ?_, fun q => ?_⟩
  · unfold Calc.dbm_to_milliwat Calc.milliwatt_to_dbm
    rw [show (10.0:ℝ) = 10 by norm_num]
    rw [mul_div_cancel_left₀ _ (by norm_num : (10:ℝ) ≠ 0)]
    exact Real.rpow_logb (by norm_num) (by norm_num) hp
  · unfold Calc.dbm_to_watt Calc.watt_to_dbm
    rw [show (10.0:ℝ) = 10 by norm_num]
    rw [mul_div_cancel_left₀ _ (by norm_num : (10:ℝ) ≠ 0)]
    rw [Real.rpow_logb (by norm_num) (by norm_num) (by positivity)]
    ring
  · unfold Calc.dbm_to_dbw Calc.dbw_to_dbm
    ring

/-- Witness for C7 (amended) at p = 5 mW/W, and at q = −30 dBW (= 0 dBm)
for the dBW pair, an ordinary negative input. -/
theorem power_roundtrips_pos_witness :
    Calc.dbm_to_milliwat (Calc.milliwatt_to_dbm 5) = 5 ∧
    Calc.dbm_to_watt (Calc.watt_to_dbm 5) = 5 ∧
    Calc.dbm_to_dbw (Calc.dbw_to_dbm (-30)) = -30 :=
  ⟨(power_roundtrips_pos 5 (by norm_num)).1,
   (power_roundtrips_pos 5 (by norm_num)).2.1,
   (power_roundtrips_pos 5 (by norm_num)).2.2 (-30)⟩

/-- C6: for all d > 0, d₀ > 0, f > 0, n > 0, `friis::distance` applied to
`friis::path_loss d d₀ f n` returns exactly d (the real-valued model is the
exact algebraic inverse, covering d < d₀, d = d₀ and d > d₀). -/
theorem distance_path_loss_roundtrip (d d0 f n : ℝ)
    (hd : 0 < d) (hd0 : 0 < d0) (hf : 0 < f) (hn : 0 < n) :
    Calc.friis.distance (Calc.friis.path_loss d d0 f n) d0 f n = d := by
  have hb : (1:ℝ) < 10 := by norm_num
  simp only [Calc.friis.distance, Calc.friis.path_loss]
  rw [show (1.0:ℝ) = 1 by norm_num, show (32.0:ℝ) = 32 by norm_num,
    show (20.0:ℝ) = 20 by norm_num, show (10.0:ℝ) = 10 by norm_num]
  simp only [div_one]
  have hsimp : ∀ X : ℝ,
      32 + 20 * Real.logb 10 (f / 1e9) + X - 32 - 20 * Real.logb 10 (f / 1e9) = X :=
    fun X => by ring
  rw [hsimp]
  rcases lt_trichotomy d d0 with h | rfl | h
  · rw [if_pos h]
    have hlog : Real.logb 10 d < Real.logb 10 d0 := Real.logb_lt_logb hb hd h
    rw [if_pos (by linarith)]
    rw [mul_div_cancel_left₀ _ (by norm_num : (20:ℝ) ≠ 0)]
    exact Real.rpow_logb (by norm_num) (by norm_num) hd
  · rw [if_neg (lt_irrefl d)]
    rw [div_self hd.ne', Real.logb_one, mul_zero, add_zero]
    rw [if_pos le_rfl]
    rw [mul_div_cancel_left₀ _ (by norm_num : (20:ℝ) ≠ 0)]
    exact Real.rpow_logb (by norm_num) (by norm_num) hd
  · rw [if_neg (not_lt.mpr h.le)]
    have ht : 0 < Real.logb 10 (d / d0) := Real.logb_pos hb ((one_lt_div hd0).mpr h)
    have hpos : 0 < n * 10 * Real.logb 10 (d / d0) := by positivity
    rw [if_neg (not_le.mpr (by linarith))]
    have e1 : (20 * Real.logb 10 d0 + n * 10 * Real.logb 10 (d / d0)
        - 20 * Real.logb 10 d0) / n / 10 = Real.logb 10 (d / d0) := by
      field_simp
    rw [e1, Real.rpow_logb (by norm_num) (by norm_num) (by positivity),
      div_mul_cancel₀ _ hd0.ne']

/-- Witness for C6 at the spec's regression scenario d = 2000, d₀ = 500,
f = 2.4 GHz, n = 4.3 (the d > d₀ branch). -/
theorem distance_path_loss_roundtrip_witness :
    Calc.friis.distance (Calc.friis.path_loss 2000 500 2.4e9 4.3) 500 2.4e9 4.3 = 2000 :=
  distance_path_loss_roundtrip 2000 500 2.4e9 4.3 (by norm_num) (by norm_num)
    (by norm_num) (by norm_num)

/-- C8 counterexample: with break exponent n = 0 (and d₀ = 1, f = 1 GHz)
`path_loss` is constant beyond the break, so it is not strictly increasing
in distance for every choice of the fixed parameters: at d1 = 2 < d2 = 3
both sides equal 32 dB exactly (also in f64 arithmetic, where every term
is exactly zero). -/
theorem path_loss_not_strictly_increasing :
    ¬ Calc.friis.path_loss 2 1 1e9 0 < Calc.friis.path_loss 3 1 1e9 0 := by
  simp only [Calc.friis.path_loss]
  rw [if_neg (by norm_num : ¬ (2:ℝ) < 1), if_neg (by norm_num : ¬ (3:ℝ) < 1)]
  norm_num [Real.logb_one]

/-- C8 (amended): `path_loss` is strictly increasing in distance for fixed
break distance d₀ > 0, break exponent n > 0 and any frequency, on the
positive distances: 0 < d1 < d2 implies
`path_loss d1 d₀ f n < path_loss d2 d₀ f n`. -/
theorem path_loss_strictly_increasing (d1 d2 d0 f n : ℝ)
    (h1 : 0 < d1) (h12 : d1 < d2) (hd0 : 0 < d0) (hn : 0 < n) :
    Calc.friis.path_loss d1 d0 f n < Calc.friis.path_loss d2 d0 f n := by
  have hb : (1:ℝ) < 10 := by norm_num
  simp only [Calc.friis.path_loss]
  rw [show (1.0:ℝ) = 1 by norm_num]
  simp only [div_one]
  apply add_lt_add_left
  rcases lt_or_le d1 d0 with ha | ha
  · rw [if_pos ha]
    rcases lt_or_le d2 d0 with hc | hc
    · rw [if_pos hc]
      have := Real.logb_lt_logb hb h1 h12
      linarith
    · rw [if_neg (not_lt.mpr hc)]
      have l1 : Real.logb 10 d1 < Real.logb 10 d0 := Real.logb_lt_logb hb h1 ha
      have l2 : 0 ≤ Real.logb 10 (d2 / d0) :=
        Real.logb_nonneg hb ((one_le_div hd0).mpr hc)
      have l3 : 0 ≤ n * 10.0 * Real.logb 10 (d2 / d0) := by positivity
      linarith
  · rw [if_neg (not_lt.mpr ha), if_neg (not_lt.mpr (ha.trans h12.le))]
    have l : Real.logb 10 (d1 / d0) < Real.logb 10 (d2 / d0) :=
      Real.logb_lt_logb hb (by positivity) ((div_lt_div_iff_of_pos_right hd0).mpr h12)
    have l2 : n * 10.0 * Real.logb 10 (d1 / d0) < n * 10.0 * Real.logb 10 (d2 / d0) :=
      mul_lt_mul_of_pos_left l (by positivity)
    linarith

/-- Witness for C8 (amended) at d1 = 100 < d2 = 200 with d₀ = 500,
f = 2.4 GHz, n = 4.3. -/
theorem path_loss_strictly_increasing_witness :
    Calc.friis.path_loss 100 500 2.4e9 4.3 < Calc.friis.path_loss 200 500 2.4e9 4.3 :=
  path_loss_strictly_increasing 100 200 500 2.4e9 4.3 (by norm_num) (by norm_num)
    (by norm_num) (by norm_num)

/-- C9: `thermal_noise_power` computes exactly `k_B · T · B` with
k_B = 1.380649e-23 J/K, and at T = 290 K, B = 20 MHz the resulting noise
floor `watt_to_dbm (thermal_noise_power 290 20e6)` lies within 0.01 dB of
−100.97 dBm (its exact value is 10·log10(8.0077642e-11) ≈ −100.9649). -/
theorem thermal_noise_matches_spec :
    (∀ t b : ℝ, Calc.thermal_noise_power t b = 1.380649e-23 * t * b) ∧
    |Calc.watt_to_dbm (Calc.thermal_noise_power 290 20e6) + 100.97| < 0.01 := by
  constructor
  · intro t b; rfl
  · have harg : Calc.thermal_noise_power 290 20e6 * 1000.0 = 80077642e-18 := by
      norm_num [Calc.thermal_noise_power, Calc.KB]
    simp only [Calc.watt_to_dbm]
    rw [harg]
    have hx : (0:ℝ) < 80077642e-18 := by norm_num
    have hupper : Real.logb 10 (80077642e-18 : ℝ) < -1262/125 := by
      rw [Real.logb_lt_iff_lt_rpow (by norm_num) hx]
      apply lt_of_pow_lt_pow_left₀ 125 (le_of_lt (Real.rpow_pos_of_pos (by norm_num) _))
      have h125 : ((10:ℝ) ^ ((-1262:ℝ)/125)) ^ (125:ℕ) = (10:ℝ) ^ (-1262 : ℤ) := by
        rw [← Real.rpow_natCast ((10:ℝ) ^ ((-1262:ℝ)/125)) 125,
          ← Real.rpow_mul (by norm_num : (0:ℝ) ≤ 10)]
        rw [show ((-1262:ℝ)/125 * ((125:ℕ):ℝ)) = (((-1262 : ℤ) : ℝ)) by push_cast; ring]
        exact Real.rpow_intCast 10 (-1262)
      rw [h125]
      norm_num
    have hlower : (-10097/1000 : ℝ) < Real.logb 10 (80077642e-18 : ℝ) := by
      rw [Real.lt_logb_iff_rpow_lt (by norm_num) hx]
      apply lt_of_pow_lt_pow_left₀ 1000 (le_of_lt hx)
      have h1000 : ((10:ℝ) ^ ((-10097:ℝ)/1000)) ^ (1000:ℕ) = (10:ℝ) ^ (-10097 : ℤ) := by
        rw [← Real.rpow_natCast ((10:ℝ) ^ ((-10097:ℝ)/1000)) 1000,
          ← Real.rpow_mul (by norm_num : (0:ℝ) ≤ 10)]
        rw [show ((-10097:ℝ)/1000 * ((1000:ℕ):ℝ)) = (((-10097 : ℤ) : ℝ)) by push_cast; ring]
        exact Real.rpow_intCast 10 (-10097)
      rw [h1000]
      norm_num
    rw [abs_lt]
    constructor <;> linarith

/-- The guarded, finite evaluation unfolded once: when the closure error is
finite and the target is `Snr`, `update` adds the closure error to `snr`
and changes nothing else. -/
lemma update_eq_of_snr (s : LinkBudgetApp) (hfin : s.closureFinite)
    (ht : s.calculation_target = CalculationTarget.Snr) :
    s.update = { s with snr := s.snr + s.total_sum } := by
  simp only [LinkBudgetApp.update]
  rw [if_neg (not_not_intro hfin), ht]

/-- `total_sum` of a state whose `snr` field alone was replaced by x. -/
lemma total_sum_set_snr (s : LinkBudgetApp) (x : ℝ) :
    ({ s with snr := x } : LinkBudgetApp).total_sum = s.total_sum + s.snr - x := by
  simp only [LinkBudgetApp.total_sum, LinkBudgetApp.total_losses, LinkBudgetApp.total_gains]
  ring

/-- C1: from any state with finite closure error and target `Snr`, the
first cycle zeroes the recomputed closure error exactly (in the real-valued
model, i.e. up to floating-point noise in f64), so the second cycle leaves
SNR unchanged. -/
theorem update_snr_idempotent (s : LinkBudgetApp)
    (ht : s.calculation_target = CalculationTarget.Snr) (hfin : s.closureFinite) :
    s.update.total_sum = 0 ∧ s.update.update.snr = s.update.snr := by
  have h1 : s.update = { s with snr := s.snr + s.total_sum } := update_eq_of_snr s hfin ht
  have h2 : s.update.total_sum = 0 := by
    rw [h1, total_sum_set_snr]
    ring
  have hfin2 : s.update.closureFinite := by
    rw [h1]; exact hfin
  have ht2 : s.update.calculation_target = CalculationTarget.Snr := by
    rw [h1]; exact ht
  have h3 : s.update.update = { s.update with snr := s.update.snr + s.update.total_sum } :=
    update_eq_of_snr s.update hfin2 ht2
  refine ⟨h2, ?_⟩
  rw [h3]
  simp [h2]

/-- C2: whenever the closure error is non-finite — in particular whenever
bandwidth = 0, which drives the thermal-noise `log10` argument to 0 and
the noise floor to −∞ — `update` returns the state unchanged, every field
included. -/
theorem update_guard_noop :
    (∀ s : LinkBudgetApp, ¬ s.closureFinite → s.update = s) ∧
    (∀ s : LinkBudgetApp, s.bandwidth = 0 → s.update = s) := by
  constructor
  · intro s h
    simp only [LinkBudgetApp.update]
    rw [if_pos h]
  · intro s h
    have hnf : ¬ s.closureFinite := by
      rintro ⟨h1, -⟩
      rw [h] at h1
      simp [Calc.thermal_noise_power] at h1
    simp only [LinkBudgetApp.update]
    rw [if_pos hnf]

/-- C4: with a finite closure error e, `update` rewrites exactly the one
field selected by `calculation_target` — `snr += e`, `tx_power -= e`, or
`distance := friis::distance (current path loss + e, d_break, frequency,
break_exponent)` — and leaves every other field unchanged (the record
update on the right-hand sides fixes all remaining fields). -/
theorem update_frame (s : LinkBudgetApp) (hfin : s.closureFinite) :
    (s.calculation_target = CalculationTarget.Snr →
      s.update = { s with snr := s.snr + s.total_sum }) ∧
    (s.calculation_target = CalculationTarget.TxPower →
      s.update = { s with tx_power := s.tx_power - s.total_sum }) ∧
    (s.calculation_target = CalculationTarget.Distance →
      s.update = { s with distance := Calc.friis.distance (Calc.friis.path_loss s.distance s.d_break s.frequency s.break_exponent + s.total_sum) s.d_break s.frequency s.break_exponent }) := by
  refine ⟨fun ht => ?_, fun ht => ?_, fun ht => ?_⟩ <;>
  · simp only [LinkBudgetApp.update]
    rw [if_neg (not_not_intro hfin), ht]

/-- C10: `friis::distance` returns a strictly positive real (hence never a
negative value; NaN, which in f64 could only come from a `log10` of the
non-positive `d_break`, is excluded by `d_break > 0`); consequently a
`Distance`-target cycle with finite closure error leaves a strictly
positive distance field. -/
theorem distance_always_positive :
    (∀ L d0 f n : ℝ, 0 < d0 → 0 < Calc.friis.distance L d0 f n) ∧
    (∀ s : LinkBudgetApp, s.closureFinite →
      s.calculation_target = CalculationTarget.Distance → 0 < s.d_break →
      0 < s.update.distance) := by
  have hpos : ∀ L d0 f n : ℝ, 0 < d0 → 0 < Calc.friis.distance L d0 f n := by
    intro L d0 f n hd0
    simp only [Calc.friis.distance]
    split_ifs with h
    · exact Real.rpow_pos_of_pos (by norm_num) _
    · exact mul_pos (Real.rpow_pos_of_pos (by norm_num) _) hd0
  refine ⟨hpos, fun s hfin ht hd0 => ?_⟩
  have h1 : s.update = { s with distance := Calc.friis.distance (Calc.friis.path_loss s.distance s.d_break s.frequency s.break_exponent + s.total_sum) s.d_break s.frequency s.break_exponent } := by
    simp only [LinkBudgetApp.update]
    rw [if_neg (not_not_intro hfin), ht]
  rw [h1]
  exact hpos _ _ _ _ hd0

/-- The default parameter state of `LinkBudgetApp` in `src/main.rs`
(`impl Default`), used as a concrete evaluation point. -/
def sampleState : LinkBudgetApp where
  temperature := 290
  frequency := 2.4e9
  bandwidth := 20e6
  snr := 10
  tx_power := 30
  distance := 2000
  d_break := 500
  break_exponent := 4.3
  losses := []
  loss_name := ""
  loss_db := 10
  gains := []
  gain_name := ""
  gain_db := 10
  calculation_target := CalculationTarget.Snr

/-- At the default parameters every `log10` argument of `total_sum` is
positive, so the closure error is finite. -/
lemma sampleState_closureFinite : sampleState.closureFinite := by
  simp only [LinkBudgetApp.closureFinite, LinkBudgetApp.pathLossFinite, sampleState,
    Calc.thermal_noise_power, Calc.KB]
  norm_num

/-- Witness for C1 at the default parameter state. -/
theorem update_snr_idempotent_witness :
    sampleState.update.total_sum = 0 ∧
    sampleState.update.update.snr = sampleState.update.snr :=
  update_snr_idempotent sampleState rfl sampleState_closureFinite

/-- The default state with bandwidth dragged to 0 (the spec's degenerate
guard scenario). -/
def zeroBandwidthState : LinkBudgetApp := { sampleState with bandwidth := 0 }

/-- Witness for C2: at bandwidth = 0 the cycle changes nothing. -/
theorem update_guard_noop_witness : zeroBandwidthState.update = zeroBandwidthState :=
  update_guard_noop.2 zeroBandwidthState rfl

/-- Witness for C4 at the default parameter state (target `Snr`). -/
theorem update_frame_witness :
    (sampleState.calculation_target = CalculationTarget.Snr →
      sampleState.update = { sampleState with snr := sampleState.snr + sampleState.total_sum }) ∧
    (sampleState.calculation_target = CalculationTarget.TxPower →
      sampleState.update = { sampleState with tx_power := sampleState.tx_power - sampleState.total_sum }) ∧
    (sampleState.calculation_target = CalculationTarget.Distance →
      sampleState.update = { sampleState with distance := Calc.friis.distance (Calc.friis.path_loss sampleState.distance sampleState.d_break sampleState.frequency sampleState.break_exponent + sampleState.total_sum) sampleState.d_break sampleState.frequency sampleState.break_exponent }) :=
  update_frame sampleState sampleState_closureFinite

/-- The default state solving for distance. -/
def distTargetState : LinkBudgetApp :=
  { sampleState with calculation_target := CalculationTarget.Distance }

/-- Witness for C10: a concrete inversion input and a concrete
`Distance`-target cycle both yield a positive distance. -/
theorem distance_always_positive_witness :
    0 < Calc.friis.distance 120 500 2.4e9 4.3 ∧ 0 < distTargetState.update.distance :=
  ⟨distance_always_positive.1 120 500 2.4e9 4.3 (by norm_num),
   distance_always_positive.2 distTargetState sampleState_closureFinite rfl
     (by norm_num [distTargetState, sampleState])⟩
